import Mathlib

set_option maxRecDepth 10000

/-!
Verification of the wildcard-detection and request-worker core of the
`dirbuster-rs` scanner (src/wildcard.rs, src/parser.rs, src/buster.rs).

The Rust code is shallowly embedded: `usize`/`u16`/`u64` become `Nat`
(no arithmetic here comes near an overflow that the claims depend on),
`HashSet` becomes `Finset`, `HashMap<String, HashSet<String>>` becomes a
total function `String → Finset String` defaulting to `∅` (mirroring the
`entry(k).or_default()` access pattern), `Option` stays `Option`, and
`Vec<(usize, usize)>` stays `List (Nat × Nat)`.

The `f64` confidence accumulator of `is_likely_wildcard` is embedded in
integer tenths (0.9 → 9, threshold 0.7 → 7, ...): every bump and every
threshold in the source is a decimal multiple of 0.1, and along every
reachable comparison the IEEE-double sum agrees with the exact decimal
sum on which side of the threshold it falls, so the integer model is
observationally exact.

External crate functions (SHA-256 from `sha2`, the two pre-compiled
regexes from `regex`) are pure functions of their string argument; they
are modelled as an uninterpreted function bundle `ExternalFns`.
-/

/-- Sum of the UTF-8 byte sizes of a character list; `strLen s` below is
Rust's `str::len` (byte length) for the valid UTF-8 string `s`. -/
def utf8SizeSum : List Char → Nat
  | [] => 0
  | c :: cs => c.utf8Size + utf8SizeSum cs

/-- Rust `str::len`: the UTF-8 byte length of the string. -/
def strLen (s : String) : Nat := utf8SizeSum s.data

/-- Whether `needle` occurs as a contiguous sublist of `haystack`. -/
def listInfix (needle : List Char) : List Char → Bool
  | [] => needle.isEmpty
  | c :: rest => needle.isPrefixOf (c :: rest) || listInfix needle rest

/-- Rust `str::contains(needle)`: substring containment.  For valid UTF-8
(UTF-8 is self-synchronising) byte-level containment coincides with
character-level infix containment, which is what we compute. -/
def containsStr (haystack needle : String) : Bool :=
  listInfix needle.data haystack.data

/-- Rust `str::split_whitespace().count()`: the number of maximal nonempty
runs of non-whitespace characters. -/
def countWords (s : String) : Nat :=
  ((s.split fun c => c.isWhitespace).filter fun t => t ≠ "").length

/-- Rust `str::lines().count()`: `\n`-separated lines, where a trailing
newline does not start a final empty line and the empty string has no
lines. -/
def countLines (s : String) : Nat :=
  if s = "" then 0
  else if s.endsWith "\n" then (s.splitOn "\n").length - 1
  else (s.splitOn "\n").length

/-- The byte offsets of the character boundaries of a character list,
starting from base offset `acc`. -/
def byteOffsetsFrom (acc : Nat) : List Char → List Nat
  | [] => [acc]
  | c :: cs => acc :: byteOffsetsFrom (acc + c.utf8Size) cs

/-- The byte offsets of the character boundaries of a character list:
`0`, each cumulative UTF-8 size, and the total byte length.  For a valid
UTF-8 Rust string these are exactly the indices at which
`str::is_char_boundary` holds (up to and including `len`). -/
def byteOffsets (l : List Char) : List Nat := byteOffsetsFrom 0 l

/-- Rust `str::is_char_boundary i` for a valid UTF-8 string. -/
def isCharBoundary (s : String) (i : Nat) : Bool :=
  (byteOffsets s.data).contains i

/-- The characters of the byte-prefix of length `k`: take characters
greedily while their cumulative UTF-8 size fits in `k`.  When `k` is a
character boundary this is exactly Rust's slice `&s[..k]` (which would
panic off a boundary; theorem C9 shows the index used by the source is
always a boundary). -/
def takeBytes : Nat → List Char → List Char
  | _, [] => []
  | k, c :: cs => if c.utf8Size ≤ k then c :: takeBytes (k - c.utf8Size) cs else []

/-- Rust `&s[..k]` at a character boundary `k`. -/
def prefixBytes (s : String) (k : Nat) : String := ⟨takeBytes k s.data⟩

/-- The boundary-search loop of `WildcardSample::from_response`:
`while end_index > 0 && !body.is_char_boundary(end_index) { end_index -= 1 }`. -/
def findHashBoundary (s : String) : Nat → Nat
  | 0 => 0
  | n + 1 => if isCharBoundary s (n + 1) then n + 1 else findHashBoundary s n

/-- Constant `HASH_SAMPLE_SIZE` from `WildcardSample::from_response`. -/
def HASH_SAMPLE_SIZE : Nat := 1024

/-- The string actually fed to SHA-256 by `WildcardSample::from_response`:
the whole body if it is at most 1024 bytes, else the prefix up to the
nearest character boundary at or before byte 1024. -/
def hashInput (body : String) : String :=
  if strLen body > HASH_SAMPLE_SIZE then
    prefixBytes body (findHashBoundary body HASH_SAMPLE_SIZE)
  else body

/-- Pure functions supplied by external crates (`sha2`, `regex`); the
repository code only applies them. `title_capture` is capture group 1 of
`TITLE_REGEX` applied to the html, `tag_count` is
`HTML_TAG_REGEX.find_iter(html).count()`. -/
structure ExternalFns where
  sha256_hex : String → String
  title_capture : String → Option String
  tag_count : String → Nat

/-- List `known_errors` from `extract_patterns` in src/wildcard.rs, in source
order. -/
def knownErrors : List String :=
  ["404 Not Found", "403 Forbidden", "500 Internal Server Error",
   "Access Denied", "Not Found", "Forbidden"]

/-- Function `extract_patterns` from src/wildcard.rs: title = trimmed capture of the
title regex, error message = first phrase of `knownErrors` contained in the
body. -/
def extract_patterns (ext : ExternalFns) (html : String) :
    Option String × Option String :=
  let title := (ext.title_capture html).map fun m => m.trim
  let error_message := knownErrors.find? fun msg => containsStr html msg
  (title, error_message)

/-- Function `count_html_tags` from src/wildcard.rs (delegates to the pre-compiled
regex). -/
def count_html_tags (ext : ExternalFns) (html : String) : Nat :=
  ext.tag_count html

/-- Struct `WildcardSample` from src/wildcard.rs. Headers are the key/value pairs
of the `HashMap<String, String>` snapshot. -/
structure WildcardSample where
  size : Nat
  sha256 : String
  status_code : Nat
  title : Option String
  error_message : Option String
  headers : List (String × String)
  line_count : Nat
  word_count : Nat
  html_tag_count : Nat
deriving DecidableEq

/-- Function `WildcardSample::from_response` from src/wildcard.rs. -/
def WildcardSample.from_response (ext : ExternalFns) (body : String)
    (status_code : Nat) (headers : List (String × String)) : WildcardSample :=
  let sha256 := ext.sha256_hex (hashInput body)
  let p := extract_patterns ext body
  { size := strLen body
    sha256 := sha256
    status_code := status_code
    title := p.1
    error_message := p.2
    headers := headers
    line_count := countLines body
    word_count := countWords body
    html_tag_count := count_html_tags ext body }

/-- Struct `WildcardProfile` from src/wildcard.rs. -/
structure WildcardProfile where
  size_ranges : List (Nat × Nat)
  sha256_hashes : Finset String
  common_status_codes : Finset Nat
  title_patterns : Finset String
  error_message_patterns : Finset String
  header_patterns : String → Finset String
  line_count_ranges : List (Nat × Nat)
  word_count_ranges : List (Nat × Nat)
  html_tag_count_range : Option (Nat × Nat)

/-- Function `WildcardProfile::new`. -/
def WildcardProfile.new : WildcardProfile :=
  { size_ranges := []
    sha256_hashes := ∅
    common_status_codes := ∅
    title_patterns := ∅
    error_message_patterns := ∅
    header_patterns := fun _ => ∅
    line_count_ranges := []
    word_count_ranges := []
    html_tag_count_range := none }

/-- Function `WildcardProfile::merge_range`: find the first stored interval that
overlaps or touches `[mn, mx]` (`min <= *rmax && *rmin <= max` in the
source), replace it by the pairwise union and stop; append if none does. -/
def WildcardProfile.merge_range : List (Nat × Nat) → Nat → Nat → List (Nat × Nat)
  | [], mn, mx => [(mn, mx)]
  | (rmin, rmax) :: rest, mn, mx =>
      if mn ≤ rmax ∧ rmin ≤ mx then
        (min rmin mn, max rmax mx) :: rest
      else
        (rmin, rmax) :: WildcardProfile.merge_range rest mn mx

/-- Function `WildcardProfile::update_tag_count_range`. -/
def WildcardProfile.update_tag_count_range :
    Option (Nat × Nat) → Nat → Option (Nat × Nat)
  | some (mn, mx), count => some (min mn count, max mx count)
  | none, count => some (count, count)

/-- Function `WildcardProfile::add_sample`.  The `f64` tolerances
`ceil(size * 0.05)` and `ceil(count * 0.1)` are embedded as the exact
ceilings `⌈size/20⌉` and `⌈count/10⌉`; `saturating_sub` is `Nat`
subtraction. -/
def WildcardProfile.add_sample (p : WildcardProfile) (resp : WildcardSample) :
    WildcardProfile :=
  let common_status_codes := insert resp.status_code p.common_status_codes
  let sha256_hashes := insert resp.sha256 p.sha256_hashes
  let tol := (resp.size + 19) / 20
  let min_size := resp.size - tol
  let max_size := resp.size + tol
  let header_patterns := resp.headers.foldl
    (fun hp kv k => if k = kv.1 then insert kv.2 (hp k) else hp k)
    p.header_patterns
  let title_patterns := match resp.title with
    | some t => insert t p.title_patterns
    | none => p.title_patterns
  let error_message_patterns := match resp.error_message with
    | some e => insert e p.error_message_patterns
    | none => p.error_message_patterns
  let line_tol := (resp.line_count + 9) / 10
  let min_line := resp.line_count - line_tol
  let max_line := resp.line_count + line_tol
  let word_tol := (resp.word_count + 9) / 10
  let min_word := resp.word_count - word_tol
  let max_word := resp.word_count + word_tol
  { size_ranges := WildcardProfile.merge_range p.size_ranges min_size max_size
    sha256_hashes := sha256_hashes
    common_status_codes := common_status_codes
    title_patterns := title_patterns
    error_message_patterns := error_message_patterns
    header_patterns := header_patterns
    line_count_ranges := WildcardProfile.merge_range p.line_count_ranges min_line max_line
    word_count_ranges := WildcardProfile.merge_range p.word_count_ranges min_word max_word
    html_tag_count_range :=
      WildcardProfile.update_tag_count_range p.html_tag_count_range resp.html_tag_count }

/-- Function `WildcardProfile::is_likely_wildcard`, with confidence in integer
tenths (see the module comment).  Each source step
`if cond { confidence += x; match_count += 1 }` is embedded as adding
`if cond then x else 0` (resp. `1`), in source order. -/
def WildcardProfile.is_likely_wildcard (p : WildcardProfile)
    (resp : WildcardSample) : Bool :=
  -- 1. Exact SHA256 match (+0.9, no count)
  let hashM : Bool := decide (resp.sha256 ∈ p.sha256_hashes)
  -- 2. Title pattern match (+0.7)
  let titleM : Bool := match resp.title with
    | some t => decide (t ∈ p.title_patterns)
    | none => false
  -- 3. Error message pattern match (+0.8)
  let errM : Bool := match resp.error_message with
    | some e => decide (e ∈ p.error_message_patterns)
    | none => false
  -- 4. Size range match (+0.3)
  let size_match := p.size_ranges.any fun q =>
    decide (q.1 ≤ resp.size) && decide (resp.size ≤ q.2)
  -- 5. Multiple metrics matching (+0.2 each)
  let line_match := p.line_count_ranges.any fun q =>
    decide (q.1 ≤ resp.line_count) && decide (resp.line_count ≤ q.2)
  let word_match := p.word_count_ranges.any fun q =>
    decide (q.1 ≤ resp.word_count) && decide (resp.word_count ≤ q.2)
  let tag_match : Bool := match p.html_tag_count_range with
    | some (mn, mx) => decide (mn ≤ resp.html_tag_count) && decide (resp.html_tag_count ≤ mx)
    | none => false
  let match_count : Nat :=
    (if titleM then 1 else 0) + (if errM then 1 else 0) + (if size_match then 1 else 0) +
    (if line_match then 1 else 0) + (if word_match then 1 else 0) + (if tag_match then 1 else 0)
  let confidence : Nat :=
    (if hashM then 9 else 0) + (if titleM then 7 else 0) + (if errM then 8 else 0) +
    (if size_match then 3 else 0) + (if line_match then 2 else 0) +
    (if word_match then 2 else 0) + (if tag_match then 2 else 0)
  -- 6. Decision
  if resp.status_code = 200 then
    decide (7 ≤ confidence) || (decide (3 ≤ match_count) && decide (5 ≤ confidence))
  else
    let confidence := confidence +
      (if resp.status_code ∈ p.common_status_codes then 6 else 0)
    decide (5 ≤ confidence) || decide (2 ≤ match_count)

/-- Struct `DetailedResponse` from src/buster.rs.  `response_time` (a `Duration`)
is carried in whole milliseconds, which is the only granularity the code
ever reads (`as_millis`). -/
structure DetailedResponse where
  word : String
  status : Nat
  content_length : Option Nat
  response_time_ms : Nat
  word_count : Option Nat
deriving DecidableEq

/-- Struct `ScanConfig` from src/buster.rs. -/
structure ScanConfig where
  base_url : String
  retries : Nat
  delay_min : Nat
  delay_max : Nat
  rotate_user_agent : Bool
  rotate_ip_headers : Bool
  user_agents : List String
  auth_header : Option String
  basic_auth : Option String
  bearer_token : Option String
  custom_headers : List (String × String)
  filter_codes : List Nat
  filter_size : Option (Nat × Nat)
  filter_time : Option Nat
  filter_words : Option (Nat × Nat)
  show_content_length : Bool
  show_response_time : Bool
  detect_wildcards : Bool

/-- Function `should_filter_response` from src/parser.rs: the source's chain of
early `return true`s. -/
def should_filter_response (response : DetailedResponse) (config : ScanConfig) : Bool :=
  if config.filter_codes.contains response.status then true
  else if (match response.content_length, config.filter_size with
           | some content_length, some (mn, mx) =>
               decide (content_length < mn) || decide (content_length > mx)
           | _, _ => false) then true
  else if (match config.filter_time with
           | some max_time => decide (response.response_time_ms > max_time)
           | none => false) then true
  else if (match response.word_count, config.filter_words with
           | some word_count, some (mn, mx) =>
               decide (word_count < mn) || decide (word_count > mx)
           | _, _ => false) then true
  else false

/-- Enum `BustResult` from src/buster.rs. -/
inductive BustResult where
  | Success (resp : DetailedResponse)
  | NotFound (resp : DetailedResponse)
  | Error (word : String) (msg : String)
  | Filtered (resp : DetailedResponse)
deriving DecidableEq

/-- What one `request.send().await` in `bust_url_with_retry` produced:
either a response (status, content length, elapsed ms, body text, header
snapshot) or a transport error message. -/
inductive AttemptOutcome where
  | response (status : Nat) (content_length : Option Nat)
      (response_time_ms : Nat) (body : String) (headers : List (String × String))
  | transportError (msg : String)

/-- The environment one call of `bust_url_with_retry` runs against: the
value of `state.should_stop` observed at the top of attempt `n`, and the
network outcome of attempt `n`. -/
structure NetEnv where
  stop_flag : Nat → Bool
  outcome : Nat → AttemptOutcome

/-- Observable event of one executed loop iteration. -/
inductive AttemptEvent where
  | stopped
  | got (status : Nat)
  | failed (msg : String)
deriving DecidableEq

/-- Result of running the attempt loop: the returned `BustResult`, the
final value of the `global_delay` counter (as updated by this worker),
the sequence of events of the iterations actually executed, and whether
the trailing `Error(word, "Max retries exceeded")` after the loop was
reached. -/
structure RunOut where
  result : BustResult
  delay : Nat
  trace : List AttemptEvent
  hitFallback : Bool

/-- The attempt loop of `bust_url_with_retry` from src/buster.rs
(`for attempt in 0..=config.retries`), followed by the trailing
`Error(word, "Max retries exceeded")`.  `delay` is the `global_delay`
counter (this worker is the only writer in the model; sleeps only read
it).  The random cache-buster suffix, evasion headers and jitter do not
touch any state observed by the claims and are absorbed by the outcome
oracle. -/
def bustAux (ext : ExternalFns) (config : ScanConfig) (profile : WildcardProfile)
    (env : NetEnv) (word : String) (attempt : Nat) (delay : Nat) : RunOut :=
  if config.retries + 1 ≤ attempt then
    -- the loop range 0..=retries is exhausted
    { result := .Error word "Max retries exceeded", delay := delay,
      trace := [], hitFallback := true }
  else if env.stop_flag attempt then
    { result := .Error word "Scan stopped by user", delay := delay,
      trace := [.stopped], hitFallback := false }
  else
    match env.outcome attempt with
    | .response status content_length response_time_ms body headers =>
        let word_count :=
          if config.show_content_length || config.filter_words.isSome then
            some (countWords body)
          else none
        let dr : DetailedResponse :=
          { word := word, status := status, content_length := content_length,
            response_time_ms := response_time_ms, word_count := word_count }
        if 200 ≤ status ∧ status ≤ 299 then
          -- state.global_delay.store(0), then filter, wildcard check, success
          { result :=
              if should_filter_response dr config then .Filtered dr
              else if config.detect_wildcards &&
                  profile.is_likely_wildcard
                    (WildcardSample.from_response ext body status headers) then
                .Filtered dr
              else .Success dr
            delay := 0, trace := [.got status], hitFallback := false }
        else if status = 429 then
          -- state.global_delay.fetch_add(500)
          let delay := delay + 500
          if attempt < config.retries then
            let r := bustAux ext config profile env word (attempt + 1) delay
            { r with trace := .got status :: r.trace }
          else
            { result := .Error word "Rate limited", delay := delay,
              trace := [.got status], hitFallback := false }
        else if 500 ≤ status ∧ status ≤ 599 then
          if attempt < config.retries then
            let r := bustAux ext config profile env word (attempt + 1) delay
            { r with trace := .got status :: r.trace }
          else
            { result :=
                if should_filter_response dr config then .Filtered dr else .NotFound dr
              delay := delay, trace := [.got status], hitFallback := false }
        else
          { result :=
              if should_filter_response dr config then .Filtered dr else .NotFound dr
            delay := delay, trace := [.got status], hitFallback := false }
    | .transportError msg =>
        if (containsStr msg "timeout" || containsStr msg "connection" ||
            containsStr msg "dns") = true ∧ attempt < config.retries then
          let r := bustAux ext config profile env word (attempt + 1) delay
          { r with trace := .failed msg :: r.trace }
        else
          { result := .Error word msg, delay := delay, trace := [.failed msg],
            hitFallback := false }
termination_by config.retries + 1 - attempt
decreasing_by all_goals omega

/-- Function `bust_url_with_retry` from src/buster.rs, started at attempt 0 with
the current value `d0` of `global_delay`. -/
def bust_url_with_retry (ext : ExternalFns) (config : ScanConfig)
    (profile : WildcardProfile) (env : NetEnv) (word : String) (d0 : Nat) : RunOut :=
  bustAux ext config profile env word 0 d0

/-- How one executed loop iteration updates the `global_delay` counter:
a 2xx response stores 0, a 429 adds 500, every other event leaves it
unchanged. -/
def delayStep (d : Nat) : AttemptEvent → Nat
  | .got status =>
      if 200 ≤ status ∧ status ≤ 299 then 0
      else if status = 429 then d + 500
      else d
  | .stopped => d
  | .failed _ => d

/-- Spec-side reformulation of the filter predicate (§4.3 of the spec, C7):
one clause per filter, a missing optional field makes its clause false. -/
def spec_should_filter (response : DetailedResponse) (config : ScanConfig) : Prop :=
  response.status ∈ config.filter_codes ∨
  (∃ content_length mn mx, response.content_length = some content_length ∧
      config.filter_size = some (mn, mx) ∧
      (content_length < mn ∨ mx < content_length)) ∨
  (∃ max_time, config.filter_time = some max_time ∧
      max_time < response.response_time_ms) ∨
  (∃ word_count mn mx, response.word_count = some word_count ∧
      config.filter_words = some (mn, mx) ∧
      (word_count < mn ∨ mx < word_count))

/-- Spec-side reformulation of the wildcard classifier (C3): confidence
(in tenths) and match count accumulated per the check table, with the
status-set bump only for non-200 samples and never counted, then the
two-threshold decision. -/
def spec_is_likely_wildcard (p : WildcardProfile) (resp : WildcardSample) : Bool :=
  let hashM : Bool := decide (resp.sha256 ∈ p.sha256_hashes)
  let titleM : Bool := match resp.title with
    | some t => decide (t ∈ p.title_patterns)
    | none => false
  let errM : Bool := match resp.error_message with
    | some e => decide (e ∈ p.error_message_patterns)
    | none => false
  let sizeM := p.size_ranges.any fun q =>
    decide (q.1 ≤ resp.size) && decide (resp.size ≤ q.2)
  let lineM := p.line_count_ranges.any fun q =>
    decide (q.1 ≤ resp.line_count) && decide (resp.line_count ≤ q.2)
  let wordM := p.word_count_ranges.any fun q =>
    decide (q.1 ≤ resp.word_count) && decide (resp.word_count ≤ q.2)
  let tagM : Bool := match p.html_tag_count_range with
    | some (mn, mx) => decide (mn ≤ resp.html_tag_count) && decide (resp.html_tag_count ≤ mx)
    | none => false
  let statusM : Bool := decide (resp.status_code ∈ p.common_status_codes)
  let confidence :=
    (if hashM then 9 else 0) + (if titleM then 7 else 0) + (if errM then 8 else 0) +
    (if sizeM then 3 else 0) + (if lineM then 2 else 0) + (if wordM then 2 else 0) +
    (if tagM then 2 else 0) +
    (if !decide (resp.status_code = 200) && statusM then 6 else 0)
  let match_count :=
    (if titleM then 1 else 0) + (if errM then 1 else 0) + (if sizeM then 1 else 0) +
    (if lineM then 1 else 0) + (if wordM then 1 else 0) + (if tagM then 1 else 0)
  if resp.status_code = 200 then
    decide (7 ≤ confidence) || (decide (3 ≤ match_count) && decide (5 ≤ confidence))
  else
    decide (5 ≤ confidence) || decide (2 ≤ match_count)

/-- C7: `should_filter_response(resp, config)` returns true iff the status
is in `filter_codes`, or the known content length falls strictly outside a
set `filter_size`, or the response time in ms exceeds a set `filter_time`,
or the known word count falls strictly outside a set `filter_words`; a
missing optional field makes its clause false. -/
theorem c7_should_filter_response_iff
    (response : DetailedResponse) (config : ScanConfig) :
    should_filter_response response config = true ↔
      spec_should_filter response config := by
  unfold should_filter_response spec_should_filter
  rcases response with ⟨word, status, cl, rt, wc⟩
  rcases hcl : cl with _ | clv <;> rcases hfs : config.filter_size with _ | ⟨mn1, mx1⟩ <;>
    rcases hft : config.filter_time with _ | mt <;> rcases hwc : wc with _ | wcv <;>
    rcases hfw : config.filter_words with _ | ⟨mn2, mx2⟩ <;>
    simp [hfs, hft, hfw, List.elem_iff, Nat.lt_iff_add_one_le, and_assoc,
      exists_eq_left']

/-- C3: the classifier decision is exactly the spec's table and thresholds:
when status == 200, wildcard iff confidence ≥ 0.7 or (match_count ≥ 3 and
confidence ≥ 0.5); otherwise iff confidence ≥ 0.5 or match_count ≥ 2, with
the bumps hash +0.9 (uncounted), title +0.7, error +0.8, size +0.3,
line +0.2, word +0.2, tag +0.2 (each counted), and the +0.6 status-set
bump applied only to non-200 samples and never counted. -/
theorem c3_is_likely_wildcard_decision_table
    (p : WildcardProfile) (resp : WildcardSample) :
    p.is_likely_wildcard resp = spec_is_likely_wildcard p resp := by
  unfold WildcardProfile.is_likely_wildcard spec_is_likely_wildcard
  by_cases hs : resp.status_code = 200 <;> simp [hs]

/-- C1: a fresh profile that has received exactly one `add_sample(S)` call
classifies S itself as a wildcard, whatever S's status code, body-derived
fields or headers are. -/
theorem c1_profile_self_match (resp : WildcardSample) :
    (WildcardProfile.new.add_sample resp).is_likely_wildcard resp = true := by
  unfold WildcardProfile.new WildcardProfile.add_sample
    WildcardProfile.is_likely_wildcard
  simp only [WildcardProfile.merge_range, WildcardProfile.update_tag_count_range]
  simp [Nat.sub_le, Nat.le_add_right]

/-- C2: `merge_range` coalesces at most one interval per call.  On the
concrete example, merging `(150,250)` into `[(100,200),(300,400)]` yields
exactly `[(100,250),(300,400)]`.  In general, either nothing overlaps
(`min ≤ b ∧ a ≤ max` fails everywhere) and the interval is appended, or
only the first overlapping interval is replaced by the pairwise union and
the scan stops. -/
theorem c2_merge_range_single_pass :
    WildcardProfile.merge_range [(100, 200), (300, 400)] 150 250 = [(100, 250), (300, 400)] ∧
    ∀ (ranges : List (Nat × Nat)) (mn mx : Nat),
      ((∀ q ∈ ranges, ¬(mn ≤ q.2 ∧ q.1 ≤ mx)) ∧
        WildcardProfile.merge_range ranges mn mx = ranges ++ [(mn, mx)]) ∨
      (∃ l₁ a b l₂, ranges = l₁ ++ (a, b) :: l₂ ∧
        (∀ q ∈ l₁, ¬(mn ≤ q.2 ∧ q.1 ≤ mx)) ∧ (mn ≤ b ∧ a ≤ mx) ∧
        WildcardProfile.merge_range ranges mn mx =
          l₁ ++ (min a mn, max b mx) :: l₂) := by
  constructor
  · decide
  · intro ranges mn mx
    induction ranges with
    | nil => exact Or.inl ⟨by simp, rfl⟩
    | cons hd tl ih =>
      rcases hd with ⟨a, b⟩
      by_cases h : mn ≤ b ∧ a ≤ mx
      · refine Or.inr ⟨[], a, b, tl, rfl, by simp, h, ?_⟩
        simp [WildcardProfile.merge_range, h]
      · rcases ih with ⟨hnone, heq⟩ | ⟨l₁, a1, b1, l₂, heq, hno, hov, hres⟩
        · refine Or.inl ⟨?_, ?_⟩
          · intro q hq
            rcases List.mem_cons.mp hq with rfl | hq
            · exact h
            · exact hnone q hq
          · simp [WildcardProfile.merge_range, h, heq]
        · refine Or.inr ⟨(a, b) :: l₁, a1, b1, l₂, by simp [heq], ?_, hov, ?_⟩
          · intro q hq
            rcases List.mem_cons.mp hq with rfl | hq
            · exact h
            · exact hno q hq
          · simp only [WildcardProfile.merge_range, if_neg h, hres, List.cons_append]

/-- C2 witness: the concrete coalescing example, via the theorem. -/
theorem c2_merge_range_single_pass_witness :
    WildcardProfile.merge_range [(100, 200), (300, 400)] 150 250 = [(100, 250), (300, 400)] :=
  c2_merge_range_single_pass.1

/-- The set of integers covered by the optional html-tag-count range. -/
def tagCovered : Option (Nat × Nat) → Nat → Prop
  | none, _ => False
  | some (mn, mx), n => mn ≤ n ∧ n ≤ mx

/-- Pointwise, `hp k` only grows along the header fold of `add_sample`. -/
theorem headers_fold_superset (l : List (String × String))
    (hp : String → Finset String) (k : String) :
    hp k ⊆ (l.foldl
      (fun hp kv k => if k = kv.1 then insert kv.2 (hp k) else hp k) hp) k := by
  induction l generalizing hp with
  | nil => exact Finset.Subset.refl _
  | cons kv rest ih =>
    refine Finset.Subset.trans ?_ (ih _)
    by_cases hk : k = kv.1 <;> simp [hk, Finset.subset_insert]

/-- C5: `add_sample` is monotone — it never removes a hash, status code,
title pattern, error pattern or header value, and it never shrinks the
coverage of `html_tag_count_range`. -/
theorem c5_add_sample_monotone (p : WildcardProfile) (resp : WildcardSample) :
    p.sha256_hashes ⊆ (p.add_sample resp).sha256_hashes ∧
    p.common_status_codes ⊆ (p.add_sample resp).common_status_codes ∧
    p.title_patterns ⊆ (p.add_sample resp).title_patterns ∧
    p.error_message_patterns ⊆ (p.add_sample resp).error_message_patterns ∧
    (∀ k, p.header_patterns k ⊆ (p.add_sample resp).header_patterns k) ∧
    (∀ n, tagCovered p.html_tag_count_range n →
      tagCovered (p.add_sample resp).html_tag_count_range n) := by
  unfold WildcardProfile.add_sample
  refine ⟨Finset.subset_insert _ _, Finset.subset_insert _ _, ?_, ?_, ?_, ?_⟩
  · rcases resp.title with _ | t <;>
      simp [Finset.subset_insert, Finset.Subset.refl]
  · rcases resp.error_message with _ | e <;>
      simp [Finset.subset_insert, Finset.Subset.refl]
  · intro k
    exact headers_fold_superset _ _ _
  · intro n hn
    rcases hr : p.html_tag_count_range with _ | ⟨mn, mx⟩ <;>
      rw [hr] at hn <;>
      simp_all [tagCovered, WildcardProfile.update_tag_count_range]

/-- Concrete profile used by witnesses. -/
def witnessProfile : WildcardProfile :=
  { size_ranges := [(10, 20)]
    sha256_hashes := {"aa"}
    common_status_codes := {404}
    title_patterns := {"T"}
    error_message_patterns := {"Not Found"}
    header_patterns := fun _ => ∅
    line_count_ranges := [(1, 2)]
    word_count_ranges := [(3, 4)]
    html_tag_count_range := some (3, 5) }

/-- Concrete sample used by witnesses. -/
def witnessSample : WildcardSample :=
  { size := 15
    sha256 := "bb"
    status_code := 200
    title := some "T"
    error_message := none
    headers := [("server", "nginx")]
    line_count := 1
    word_count := 3
    html_tag_count := 4 }

/-- C5 witness: the tag-coverage clause applied at a concrete profile,
sample and point. -/
theorem c5_add_sample_monotone_witness :
    tagCovered ((witnessProfile.add_sample witnessSample).html_tag_count_range) 4 :=
  (c5_add_sample_monotone witnessProfile witnessSample).2.2.2.2.2 4
    (by constructor <;> decide)

/-- Decidable check that every stored `(min,max)` pair of the profile —
in the three range lists and, when present, the html tag range — is
non-degenerate (`min ≤ max`). -/
def rangesOkB (p : WildcardProfile) : Bool :=
  (p.size_ranges.all fun q => decide (q.1 ≤ q.2)) &&
  (p.line_count_ranges.all fun q => decide (q.1 ≤ q.2)) &&
  (p.word_count_ranges.all fun q => decide (q.1 ≤ q.2)) &&
  (match p.html_tag_count_range with
   | some (mn, mx) => decide (mn ≤ mx)
   | none => true)

/-- Feeding a profile a sequence of samples, one `add_sample` each. -/
def addSamples (p : WildcardProfile) (samples : List WildcardSample) : WildcardProfile :=
  samples.foldl WildcardProfile.add_sample p

/-- Function `merge_range` keeps every pair non-degenerate when the inserted pair
is non-degenerate. -/
theorem merge_range_all_nondegenerate (ranges : List (Nat × Nat)) (mn mx : Nat)
    (hall : (ranges.all fun q => decide (q.1 ≤ q.2)) = true) (h : mn ≤ mx) :
    ((WildcardProfile.merge_range ranges mn mx).all fun q => decide (q.1 ≤ q.2)) = true := by
  induction ranges with
  | nil => simpa [WildcardProfile.merge_range]
  | cons hd tl ih =>
    rcases hd with ⟨a, b⟩
    simp only [List.all_cons, Bool.and_eq_true, decide_eq_true_eq] at hall
    by_cases hov : mn ≤ b ∧ a ≤ mx
    · simp only [WildcardProfile.merge_range, if_pos hov, List.all_cons,
        Bool.and_eq_true, decide_eq_true_eq]
      exact ⟨by omega, hall.2⟩
    · simp only [WildcardProfile.merge_range, if_neg hov, List.all_cons,
        Bool.and_eq_true, decide_eq_true_eq]
      exact ⟨hall.1, ih hall.2⟩

/-- One `add_sample` call preserves non-degeneracy of all ranges. -/
theorem add_sample_rangesOk (p : WildcardProfile) (resp : WildcardSample)
    (h : rangesOkB p = true) : rangesOkB (p.add_sample resp) = true := by
  unfold rangesOkB at h ⊢
  unfold WildcardProfile.add_sample
  simp only [Bool.and_eq_true] at h ⊢
  obtain ⟨⟨⟨h1, h2⟩, h3⟩, h4⟩ := h
  refine ⟨⟨⟨?_, ?_⟩, ?_⟩, ?_⟩
  · exact merge_range_all_nondegenerate _ _ _ h1 (by omega)
  · exact merge_range_all_nondegenerate _ _ _ h2 (by omega)
  · exact merge_range_all_nondegenerate _ _ _ h3 (by omega)
  · rcases hr : p.html_tag_count_range with _ | ⟨mn, mx⟩ <;>
      rw [hr] at h4 <;>
      simp_all [WildcardProfile.update_tag_count_range]

/-- C6: starting from the empty profile, after any sequence of
`add_sample` calls every stored `(min,max)` pair satisfies `min ≤ max`. -/
theorem c6_range_nondegeneracy (samples : List WildcardSample) :
    rangesOkB (addSamples WildcardProfile.new samples) = true := by
  suffices h : ∀ (l : List WildcardSample) (p : WildcardProfile),
      rangesOkB p = true → rangesOkB (addSamples p l) = true by
    exact h samples WildcardProfile.new rfl
  intro l
  induction l with
  | nil => intro p hp; exact hp
  | cons s rest ih =>
    intro p hp
    exact ih _ (add_sample_rangesOk p s hp)

/-- A concrete external-function bundle for witnesses (the identity hash,
no title capture, zero tag count). -/
def witnessExt : ExternalFns :=
  { sha256_hex := fun s => s
    title_capture := fun _ => none
    tag_count := fun _ => 0 }

/-- C8: the `error_message` field produced by `from_response` is the first
phrase of the fixed ordered list `["404 Not Found", "403 Forbidden",
"500 Internal Server Error", "Access Denied", "Not Found", "Forbidden"]`
that occurs as a substring of the body, `none` when no phrase occurs; in
particular a body containing "404 Not Found" always yields
"404 Not Found", never the later "Not Found". -/
theorem c8_error_phrase_first_match (ext : ExternalFns) (body : String)
    (status_code : Nat) (headers : List (String × String)) :
    ((WildcardSample.from_response ext body status_code headers).error_message =
      (if containsStr body "404 Not Found" then some "404 Not Found"
       else if containsStr body "403 Forbidden" then some "403 Forbidden"
       else if containsStr body "500 Internal Server Error" then some "500 Internal Server Error"
       else if containsStr body "Access Denied" then some "Access Denied"
       else if containsStr body "Not Found" then some "Not Found"
       else if containsStr body "Forbidden" then some "Forbidden"
       else none)) ∧
    (containsStr body "404 Not Found" = true →
      (WildcardSample.from_response ext body status_code headers).error_message =
        some "404 Not Found") := by
  have hfind : (WildcardSample.from_response ext body status_code headers).error_message =
      knownErrors.find? fun msg => containsStr body msg := rfl
  constructor
  · rw [hfind]
    unfold knownErrors
    simp only [List.find?]
    rcases h1 : containsStr body "404 Not Found" <;>
      rcases h2 : containsStr body "403 Forbidden" <;>
      rcases h3 : containsStr body "500 Internal Server Error" <;>
      rcases h4 : containsStr body "Access Denied" <;>
      rcases h5 : containsStr body "Not Found" <;>
      rcases h6 : containsStr body "Forbidden" <;>
      simp [h1, h2, h3, h4, h5, h6]
  · intro h
    rw [hfind]
    unfold knownErrors
    simp [List.find?, h]

/-- C8 witness: a body containing both "404 Not Found" and "Not Found"
yields the earlier, more specific phrase. -/
theorem c8_error_phrase_first_match_witness :
    (WildcardSample.from_response witnessExt "<body>404 Not Found</body>" 404 []).error_message =
      some "404 Not Found" :=
  (c8_error_phrase_first_match witnessExt "<body>404 Not Found</body>" 404 []).2 (by decide)

/-- The base offset heads the offset list. -/
theorem mem_byteOffsetsFrom_self (acc : Nat) (l : List Char) :
    acc ∈ byteOffsetsFrom acc l := by
  cases l <;> simp [byteOffsetsFrom]

/-- Zero is always a character boundary. -/
theorem mem_byteOffsets_zero (l : List Char) : 0 ∈ byteOffsets l :=
  mem_byteOffsetsFrom_self 0 l

/-- The boundary-search loop returns a character boundary, does not move
forward, and returns the largest boundary at or below its start index. -/
theorem findHashBoundary_spec (s : String) (n : Nat) :
    isCharBoundary s (findHashBoundary s n) = true ∧
    findHashBoundary s n ≤ n ∧
    ∀ j, j ≤ n → isCharBoundary s j = true → j ≤ findHashBoundary s n := by
  induction n with
  | zero =>
    refine ⟨?_, Nat.le_refl 0, ?_⟩
    · simp [findHashBoundary, isCharBoundary, List.elem_iff, mem_byteOffsets_zero]
    · intro j hj _
      omega
  | succ n ih =>
    by_cases h : isCharBoundary s (n + 1) = true
    · refine ⟨by simp [findHashBoundary, h], by simp [findHashBoundary, h], ?_⟩
      intro j hj _
      simpa [findHashBoundary, h] using hj
    · have hrw : findHashBoundary s (n + 1) = findHashBoundary s n := by
        simp [findHashBoundary, h]
      refine ⟨by rw [hrw]; exact ih.1, ?_, ?_⟩
      · rw [hrw]
        have := ih.2.1
        omega
      · intro j hj hbj
        rw [hrw]
        rcases Nat.lt_or_ge j (n + 1) with hlt | hge
        · exact ih.2.2 j (by omega) hbj
        · have hj1 : j = n + 1 := by omega
          rw [hj1] at hbj
          exact absurd hbj h

/-- Members of `byteOffsetsFrom acc l` sit at or above `acc`, and taking
`k - acc` bytes of `l` lands exactly on the member `k`. -/
theorem takeBytes_boundaryFrom (l : List Char) :
    ∀ (acc k : Nat), k ∈ byteOffsetsFrom acc l →
      acc ≤ k ∧ utf8SizeSum (takeBytes (k - acc) l) = k - acc ∧
        takeBytes (k - acc) l <+: l := by
  induction l with
  | nil =>
    intro acc k hk
    simp only [byteOffsetsFrom, List.mem_singleton] at hk
    subst hk
    exact ⟨Nat.le_refl _, by simp [takeBytes, utf8SizeSum], ⟨[], rfl⟩⟩
  | cons c cs ih =>
    intro acc k hk
    simp only [byteOffsetsFrom, List.mem_cons] at hk
    rcases hk with rfl | hk
    · have hc : ¬ c.utf8Size ≤ 0 := by
        have := Char.utf8Size_pos c
        omega
      refine ⟨Nat.le_refl _, ?_, ?_⟩
      · simp [takeBytes, hc, utf8SizeSum]
      · rw [Nat.sub_self, show takeBytes 0 (c :: cs) = [] by simp [takeBytes, hc]]
        exact ⟨c :: cs, rfl⟩
    · obtain ⟨hacc, hsum, t, ht⟩ := ih (acc + c.utf8Size) k hk
      have hle : acc ≤ k := by omega
      have hsz : c.utf8Size ≤ k - acc := by omega
      have hidx : k - acc - c.utf8Size = k - (acc + c.utf8Size) := by omega
      have hrw : takeBytes (k - acc) (c :: cs) = c :: takeBytes (k - (acc + c.utf8Size)) cs := by
        simp [takeBytes, hsz, hidx]
      refine ⟨hle, ?_, t, ?_⟩
      · rw [hrw]
        simp only [utf8SizeSum, hsum]
        omega
      · rw [hrw]
        simp [ht]

/-- At a character boundary `k`, the greedy byte-prefix has byte length
exactly `k` and is a prefix of the original character list. -/
theorem takeBytes_boundary (l : List Char) (k : Nat) (hk : k ∈ byteOffsets l) :
    utf8SizeSum (takeBytes k l) = k ∧ takeBytes k l <+: l := by
  obtain ⟨-, hsum, hpre⟩ := takeBytes_boundaryFrom l 0 k hk
  rw [Nat.sub_zero] at hsum hpre
  exact ⟨hsum, hpre⟩

/-- C9: `from_response` is a deterministic function of body, status and
headers, and its prefix-hash never panics: a body of at most 1024 bytes is
hashed whole, and a longer body is cut at an index that is always a valid
character boundary — the largest boundary at or before byte 1024 — so the
hashed string is the longest character-boundary prefix of at most 1024
bytes. -/
theorem c9_from_response_deterministic_hash_cut :
    (∀ (ext : ExternalFns) (b1 : String) (s1 : Nat) (h1 : List (String × String))
        (b2 : String) (s2 : Nat) (h2 : List (String × String)),
      b1 = b2 → s1 = s2 → h1 = h2 →
      WildcardSample.from_response ext b1 s1 h1 = WildcardSample.from_response ext b2 s2 h2) ∧
    (∀ body : String, strLen body ≤ HASH_SAMPLE_SIZE → hashInput body = body) ∧
    (∀ body : String, HASH_SAMPLE_SIZE < strLen body →
      isCharBoundary body (findHashBoundary body HASH_SAMPLE_SIZE) = true ∧
      findHashBoundary body HASH_SAMPLE_SIZE ≤ HASH_SAMPLE_SIZE ∧
      (∀ j, j ≤ HASH_SAMPLE_SIZE → isCharBoundary body j = true →
        j ≤ findHashBoundary body HASH_SAMPLE_SIZE) ∧
      hashInput body = prefixBytes body (findHashBoundary body HASH_SAMPLE_SIZE) ∧
      strLen (hashInput body) = findHashBoundary body HASH_SAMPLE_SIZE ∧
      (hashInput body).data <+: body.data) := by
  refine ⟨?_, ?_, ?_⟩
  · intro ext b1 s1 h1 b2 s2 h2 hb hs hh
    rw [hb, hs, hh]
  · intro body hle
    unfold hashInput
    rw [if_neg (by omega)]
  · intro body hlt
    obtain ⟨hbnd, hle, hmax⟩ := findHashBoundary_spec body HASH_SAMPLE_SIZE
    have hmem : findHashBoundary body HASH_SAMPLE_SIZE ∈ byteOffsets body.data := by
      simpa [isCharBoundary, List.elem_iff] using hbnd
    obtain ⟨hsum, hpre⟩ := takeBytes_boundary body.data _ hmem
    have hrw : hashInput body = prefixBytes body (findHashBoundary body HASH_SAMPLE_SIZE) := by
      unfold hashInput
      rw [if_pos (by omega)]
    refine ⟨hbnd, hle, hmax, hrw, ?_, ?_⟩
    · rw [hrw]
      exact hsum
    · rw [hrw]
      exact hpre

/-- A 1027-byte body whose byte offset 1024 falls inside a two-byte
character: 1023 ASCII characters followed by two copies of a two-byte
character. -/
def witnessLongBody : String := ⟨List.replicate 1023 'a' ++ ['é', 'é']⟩

/-- C9 witness: determinism, the short-body case, and the long-body case —
on `witnessLongBody` the chosen cut index is a valid character boundary and
dominates the concrete boundary 1000 — all via the theorem at concrete
inputs. -/
theorem c9_from_response_deterministic_hash_cut_witness :
    WildcardSample.from_response witnessExt "abc" 200 [] =
        WildcardSample.from_response witnessExt "abc" 200 [] ∧
    hashInput "abc" = "abc" ∧
    isCharBoundary witnessLongBody (findHashBoundary witnessLongBody HASH_SAMPLE_SIZE) = true ∧
    1000 ≤ findHashBoundary witnessLongBody HASH_SAMPLE_SIZE := by
  refine ⟨c9_from_response_deterministic_hash_cut.1 witnessExt "abc" 200 [] "abc" 200 []
      rfl rfl rfl,
    c9_from_response_deterministic_hash_cut.2.1 "abc" (by decide),
    (c9_from_response_deterministic_hash_cut.2.2 witnessLongBody (by decide)).1,
    (c9_from_response_deterministic_hash_cut.2.2 witnessLongBody (by decide)).2.2.1 1000
      (by decide) (by decide)⟩

/-- Whether an executed-iteration event is a 2xx response. -/
def event2xx : AttemptEvent → Bool
  | .got status => decide (200 ≤ status) && decide (status ≤ 299)
  | .stopped => false
  | .failed _ => false

/-- Loop invariant of `bustAux`: starting at any attempt index that is
still inside the range `0..=retries`, the loop itself returns (the
post-loop fallback is unreachable), it executes at least one iteration,
the final `global_delay` is the fold of the per-event update over the
executed iterations, and only the final iteration can be a 2xx. -/
theorem bustAux_spec (ext : ExternalFns) (config : ScanConfig)
    (profile : WildcardProfile) (env : NetEnv) (word : String) :
    ∀ (k attempt delay : Nat), config.retries = attempt + k →
      (bustAux ext config profile env word attempt delay).hitFallback = false ∧
      (bustAux ext config profile env word attempt delay).trace ≠ [] ∧
      (bustAux ext config profile env word attempt delay).delay =
        (bustAux ext config profile env word attempt delay).trace.foldl delayStep delay ∧
      (∀ e ∈ (bustAux ext config profile env word attempt delay).trace.dropLast,
        event2xx e = false) := by
  intro k
  induction k with
  | zero =>
    intro attempt delay hk
    have hg : ¬ (config.retries + 1 ≤ attempt) := by omega
    have hnr : ¬ (attempt < config.retries) := by omega
    rw [bustAux]
    simp only [if_neg hg]
    by_cases hstop : env.stop_flag attempt
    · simp [hstop, delayStep]
    · simp only [hstop, if_neg, Bool.false_eq_true, if_false]
      cases houtcome : env.outcome attempt with
      | response status cl rt body headers =>
        by_cases h2 : 200 ≤ status ∧ status ≤ 299
        · simp [h2, delayStep]
        · by_cases h429 : status = 429
          · simp [h2, h429, hnr, delayStep]
          · by_cases h5 : 500 ≤ status ∧ status ≤ 599
            · simp [h2, h429, h5, hnr, delayStep]
            · simp [h2, h429, h5, delayStep]
      | transportError msg =>
        simp [hnr, delayStep]
  | succ k ih =>
    intro attempt delay hk
    have hg : ¬ (config.retries + 1 ≤ attempt) := by omega
    have hr : attempt < config.retries := by omega
    have hk2 : config.retries = (attempt + 1) + k := by omega
    rw [bustAux]
    simp only [if_neg hg]
    by_cases hstop : env.stop_flag attempt
    · simp [hstop, delayStep]
    · simp only [hstop, Bool.false_eq_true, if_false]
      cases houtcome : env.outcome attempt with
      | response status cl rt body headers =>
        dsimp only
        by_cases h2 : 200 ≤ status ∧ status ≤ 299
        · simp [h2, delayStep]
        · by_cases h429 : status = 429
          · obtain ⟨ih1, ih2, ih3, ih4⟩ := ih (attempt + 1) (delay + 500) hk2
            rw [if_neg h2, if_pos h429, if_pos hr]
            refine ⟨ih1, by simp, ?_, ?_⟩
            · simp only [List.foldl_cons]
              rw [show delayStep delay (.got status) = delay + 500 by
                simp [delayStep, h2, h429]]
              exact ih3
            · intro e he
              simp only [List.dropLast_cons_of_ne_nil ih2, List.mem_cons] at he
              rcases he with rfl | he
              · simp [event2xx, h429]
              · exact ih4 e he
          · by_cases h5 : 500 ≤ status ∧ status ≤ 599
            · obtain ⟨ih1, ih2, ih3, ih4⟩ := ih (attempt + 1) delay hk2
              rw [if_neg h2, if_neg h429, if_pos h5, if_pos hr]
              refine ⟨ih1, by simp, ?_, ?_⟩
              · simp only [List.foldl_cons]
                rw [show delayStep delay (.got status) = delay by
                  simp [delayStep, h2, h429]]
                exact ih3
              · intro e he
                simp only [List.dropLast_cons_of_ne_nil ih2, List.mem_cons] at he
                rcases he with rfl | he
                · simp only [event2xx]
                  simp
                  omega
                · exact ih4 e he
            · simp [h2, h429, h5, delayStep]
      | transportError msg =>
        dsimp only
        by_cases hretry : (containsStr msg "timeout" || containsStr msg "connection" ||
            containsStr msg "dns") = true
        · obtain ⟨ih1, ih2, ih3, ih4⟩ := ih (attempt + 1) delay hk2
          rw [if_pos ⟨hretry, hr⟩]
          refine ⟨ih1, by simp, ?_, ?_⟩
          · simp only [List.foldl_cons]
            rw [show delayStep delay (.failed msg) = delay by simp [delayStep]]
            exact ih3
          · intro e he
            simp only [List.dropLast_cons_of_ne_nil ih2, List.mem_cons] at he
            rcases he with rfl | he
            · simp [event2xx]
            · exact ih4 e he
        · simp [hretry, delayStep]

/-- If the last executed event is a 2xx response, the delay fold ends at 0. -/
theorem foldl_delayStep_last2xx (l : List AttemptEvent) :
    ∀ (d status : Nat), l.getLast? = some (.got status) → 200 ≤ status → status ≤ 299 →
      l.foldl delayStep d = 0 := by
  induction l with
  | nil =>
    intro d status hl
    simp at hl
  | cons e rest ih =>
    intro d status hl h2 h3
    cases rest with
    | nil =>
      simp only [List.getLast?_singleton, Option.some.injEq] at hl
      subst hl
      simp [delayStep, h2, h3]
    | cons e2 rest2 =>
      rw [List.getLast?_cons_cons] at hl
      simpa using ih (delayStep d e) status hl h2 h3

/-- C4: within one `bust_url_with_retry` call, the final `global_delay`
value is the fold of the per-event update over the executed iterations —
each observed 429 adds exactly 500, each observed 2xx stores 0, every
other event (other statuses, transport errors, the stop check) leaves it
unchanged (see `delayStep`); a 2xx can only be the final iteration, and
when the call returns from a 2xx iteration (Success or Filtered alike)
the counter is 0. -/
theorem c4_global_delay_updates (ext : ExternalFns) (config : ScanConfig)
    (profile : WildcardProfile) (env : NetEnv) (word : String) (d0 : Nat) :
    (bust_url_with_retry ext config profile env word d0).delay =
      (bust_url_with_retry ext config profile env word d0).trace.foldl delayStep d0 ∧
    (∀ e ∈ (bust_url_with_retry ext config profile env word d0).trace.dropLast,
      event2xx e = false) ∧
    (∀ status, (bust_url_with_retry ext config profile env word d0).trace.getLast? =
        some (.got status) → 200 ≤ status → status ≤ 299 →
      (bust_url_with_retry ext config profile env word d0).delay = 0) := by
  obtain ⟨-, -, h3, h4⟩ :=
    bustAux_spec ext config profile env word config.retries 0 d0 (by omega)
  refine ⟨h3, h4, ?_⟩
  intro status hl hs1 hs2
  rw [bust_url_with_retry] at hl ⊢
  rw [h3]
  exact foldl_delayStep_last2xx _ d0 status hl hs1 hs2

/-- C10: the attempt loop returns from inside on every input — on the
final attempt every branch (stop check, 2xx, 429, 5xx, other statuses,
transport error) returns a `BustResult` immediately — so the trailing
`Error(word, "Max retries exceeded")` after the loop is never reached. -/
theorem c10_max_retries_unreachable (ext : ExternalFns) (config : ScanConfig)
    (profile : WildcardProfile) (env : NetEnv) (word : String) (d0 : Nat) :
    (bust_url_with_retry ext config profile env word d0).hitFallback = false :=
  (bustAux_spec ext config profile env word config.retries 0 d0 (by omega)).1

/-- Scan configuration used by the C4 witness: two retries, no filters,
no wildcard detection. -/
def witnessConfig : ScanConfig :=
  { base_url := "http://example.test"
    retries := 2
    delay_min := 0
    delay_max := 0
    rotate_user_agent := false
    rotate_ip_headers := false
    user_agents := []
    auth_header := none
    basic_auth := none
    bearer_token := none
    custom_headers := []
    filter_codes := []
    filter_size := none
    filter_time := none
    filter_words := none
    show_content_length := false
    show_response_time := false
    detect_wildcards := false }

/-- Network oracle used by the C4 witness: a 429 on the first attempt,
then a 200. -/
def witnessEnv : NetEnv :=
  { stop_flag := fun _ => false
    outcome := fun n =>
      if n = 0 then .response 429 none 1 "" [] else .response 200 none 1 "" [] }

/-- C4 witness: on the concrete 429-then-200 run the returned counter is 0,
via the theorem's 2xx clause at the concrete trace. -/
theorem c4_global_delay_updates_witness :
    (bust_url_with_retry witnessExt witnessConfig witnessProfile witnessEnv "w" 7).delay = 0 :=
  (c4_global_delay_updates witnessExt witnessConfig witnessProfile witnessEnv "w" 7).2.2 200
    (by simp [bust_url_with_retry, bustAux, witnessConfig, witnessEnv, should_filter_response])
    (by decide) (by decide)
